import Mathlib

/-!
Verification of the proto-markdown parser (`src/parser/MarkdownParser.ts`).

Strings are embedded as `List Char` (`Str`).  The JavaScript string
operations the parser relies on (`trim`, `split`, `includes`, `indexOf`,
regular-expression matching with lazy and greedy quantifiers) are embedded
faithfully: JS `\s` and `String.prototype.trim` use the WhiteSpace and
LineTerminator character sets, and the regex `.` class excludes the four
line terminators.  Backtracking regexes are embedded by the deterministic
scans they denote, as justified match by match in the comments.

Loops of the source are embedded as fuel-indexed structural recursions
(the fuel bounds the number of iterations); the progress lemmas proved
below show the chosen fuel is never exhausted, which is exactly the
termination argument of the source.
-/

abbrev Str := List Char

/-- JS `\s` / `trim` whitespace class: WhiteSpace plus LineTerminator. -/
def jsIsWs (c : Char) : Bool :=
  c == ' ' || c == '\t' || c == '\n' || c == '\r' || c == '\x0B' || c == '\x0C' ||
  c == '\u00A0' || c == '\u1680' || ('\u2000' ≤ c && c ≤ '\u200A') || c == '\u2028' ||
  c == '\u2029' || c == '\u202F' || c == '\u205F' || c == '\u3000' || c == '\uFEFF'

/-- JS regex `.` (no `s` flag): any character except a line terminator. -/
def jsDot (c : Char) : Bool :=
  !(c == '\n' || c == '\r' || c == '\u2028' || c == '\u2029')

/-- `String.prototype.trim`. -/
def trim (s : Str) : Str :=
  ((s.dropWhile jsIsWs).reverse.dropWhile jsIsWs).reverse

/-- `String.prototype.includes` with a one-character argument. -/
def containsChar (c : Char) (s : Str) : Bool := s.any (· == c)

/-- Leading-whitespace run length (for `\s*` / `\s+`). -/
def wsRun (s : Str) : Nat := (s.takeWhile jsIsWs).length

/-- List-prefix test (for anchored literal fragments of the regexes). -/
def begins : Str → Str → Bool
  | [], _ => true
  | _ :: _, [] => false
  | p :: ps, c :: cs => p == c && begins ps cs

/-- List-suffix test (for `$`-anchored literal fragments). -/
def finishes (suf s : Str) : Bool := begins suf.reverse s.reverse

/-- `String.prototype.split` with a one-character separator. -/
def splitOn (sep : Char) : Str → List Str
  | [] => [[]]
  | c :: cs =>
    if c == sep then [] :: splitOn sep cs
    else
      match splitOn sep cs with
      | [] => [[c]]
      | s :: rest => (c :: s) :: rest

/-- `String.prototype.indexOf` with a one-character argument. -/
def idxOf (c : Char) (s : Str) : Option Nat := s.findIdx? (· == c)

/-- `.split("|").map(trim).filter(length > 0)` used for table cells. -/
def splitCells (s : Str) : List Str :=
  ((splitOn '|' s).map trim).filter (fun x => !x.isEmpty)

/-- `.split(",").map(trim).filter(length > 0)` used for option lists. -/
def splitOptions (s : Str) : List Str :=
  ((splitOn ',' s).map trim).filter (fun x => !x.isEmpty)

/-- `NodeType` from `src/parser/types.ts`. -/
inductive NodeType where
  | header | input | textarea | dropdown | button | text | container | card
  | table | checkbox | radiogroup | grid | div | bold | italic | image
  | workflow | screen
deriving DecidableEq, Repr

/-- `inputType` values. -/
inductive InputKind where
  | text | password
deriving DecidableEq, Repr

/-- Button `variant` values. -/
inductive BtnVariant where
  | default | outline
deriving DecidableEq, Repr

/-- The optional fields of `MarkdownNode` (`src/parser/types.ts`), with the
child links abstracted so the node type can tie the recursive knot. -/
structure NodeFields (α : Type) where
  type : NodeType
  id : Option Str := none
  content : Option Str := none
  level : Option Nat := none
  label : Option Str := none
  options : Option (List Str) := none
  inputType : Option InputKind := none
  variant : Option BtnVariant := none
  navigateTo : Option Str := none
  title : Option Str := none
  titleChildren : Option (List α) := none
  headers : Option (List Str) := none
  rows : Option (List (List Str)) := none
  gridConfig : Option Str := none
  className : Option Str := none
  src : Option Str := none
  alt : Option Str := none
  initialScreen : Option Str := none
  children : Option (List α) := none
deriving Repr

/-- `MarkdownNode` from `src/parser/types.ts`. -/
inductive MarkdownNode where
  | node : NodeFields MarkdownNode → MarkdownNode
deriving Repr

/-- Build a node from its field record. -/
def mkNode (f : NodeFields MarkdownNode) : MarkdownNode := .node f

def MarkdownNode.fields : MarkdownNode → NodeFields MarkdownNode
  | .node f => f

def MarkdownNode.type (n : MarkdownNode) : NodeType := n.fields.type
def MarkdownNode.id (n : MarkdownNode) : Option Str := n.fields.id
def MarkdownNode.content (n : MarkdownNode) : Option Str := n.fields.content
def MarkdownNode.level (n : MarkdownNode) : Option Nat := n.fields.level
def MarkdownNode.label (n : MarkdownNode) : Option Str := n.fields.label
def MarkdownNode.options (n : MarkdownNode) : Option (List Str) := n.fields.options
def MarkdownNode.inputType (n : MarkdownNode) : Option InputKind := n.fields.inputType
def MarkdownNode.variant (n : MarkdownNode) : Option BtnVariant := n.fields.variant
def MarkdownNode.navigateTo (n : MarkdownNode) : Option Str := n.fields.navigateTo
def MarkdownNode.titleChildren (n : MarkdownNode) : Option (List MarkdownNode) :=
  n.fields.titleChildren
def MarkdownNode.headers (n : MarkdownNode) : Option (List Str) := n.fields.headers
def MarkdownNode.rows (n : MarkdownNode) : Option (List (List Str)) := n.fields.rows
def MarkdownNode.gridConfig (n : MarkdownNode) : Option Str := n.fields.gridConfig
def MarkdownNode.className (n : MarkdownNode) : Option Str := n.fields.className
def MarkdownNode.src (n : MarkdownNode) : Option Str := n.fields.src
def MarkdownNode.alt (n : MarkdownNode) : Option Str := n.fields.alt
def MarkdownNode.initialScreen (n : MarkdownNode) : Option Str := n.fields.initialScreen
def MarkdownNode.children (n : MarkdownNode) : Option (List MarkdownNode) := n.fields.children

/-- `ParserOptions` from `src/parser/types.ts`, with the constructor
defaults (`strict: false`, `preserveWhitespace: false`) already applied. -/
structure ParserOptions where
  strict : Bool := false
  preserveWhitespace : Bool := false
deriving DecidableEq, Repr

/-- `ParseResult` from `src/parser/types.ts`. -/
structure ParseResult where
  nodes : List MarkdownNode
  errors : Option (List Str)
deriving Repr

def defaultOptions : ParserOptions := {}

/-! ## Inline emphasis tokenizer (`parseInlineEmphasis`, lines 472-550)

Each of the three emphasis regexes `^_\*(.+?)\*_`, `^\*(.+?)\*`, `^_(.+?)_`
is "opening literal, lazy non-empty dot-run, closing literal".  Lazily the
interior grows one character at a time, and the closing literal is tried
before each growth step once the interior is non-empty; a character the
dot class rejects aborts the match (no longer interior can ever succeed,
since the interior is contiguous). -/

/-- Lazy interior scan shared by the three emphasis regexes: accumulates
the interior (reversed) and stops at the first position where the closing
literal follows a non-empty interior. -/
def lazyInner (close : Str) : Str → Str → Option (Str × Str)
  | acc, r =>
    if acc ≠ [] ∧ begins close r then some (acc.reverse, r.drop close.length)
    else
      match r with
      | [] => none
      | c :: rs => if jsDot c then lazyInner close (c :: acc) rs else none

/-- `^_\*(.+?)\*_` at the start of `rest`: the captured interior (the
total match length is the interior plus the four delimiter characters). -/
def matchBoldItalic : Str → Option Str
  | '_' :: '*' :: r => (lazyInner ['*', '_'] [] r).map (fun p => p.1)
  | _ => none

/-- `^\*(.+?)\*` at the start of `rest`. -/
def matchBold : Str → Option Str
  | '*' :: r => (lazyInner ['*'] [] r).map (fun p => p.1)
  | _ => none

/-- `^_(.+?)_` at the start of `rest`. -/
def matchItalic : Str → Option Str
  | '_' :: r => (lazyInner ['_'] [] r).map (fun p => p.1)
  | _ => none

/-- One iteration of the `parseInlineEmphasis` loop body on the unconsumed
suffix: the node pushed and the number of characters the position advances. -/
def emphStep (rest : Str) : MarkdownNode × Nat :=
  match matchBoldItalic rest with
  | some c =>
    (mkNode { type := .bold,
              children := some [mkNode { type := .italic, content := some c }] },
     c.length + 4)
  | none =>
    match matchBold rest with
    | some c => (mkNode { type := .bold, content := some c }, c.length + 2)
    | none =>
      match matchItalic rest with
      | some c => (mkNode { type := .italic, content := some c }, c.length + 2)
      | none =>
        let na := idxOf '*' rest
        let nu := idxOf '_' rest
        let nm : Option Nat :=
          match na, nu with
          | some a, some u => some (min a u)
          | some a, none => some a
          | none, some u => some u
          | none, none => none
        let relEnd : Nat := match nm with | none => rest.length | some m => m
        if 0 < relEnd then (mkNode { type := .text, content := some (rest.take relEnd) }, relEnd)
        else (mkNode { type := .text, content := some (rest.take 1) }, 1)

/-- The tokenizer loop, fuel-indexed (the fuel bounds iteration count; each
iteration consumes at least one character, so `text.length` iterations
always suffice). -/
def parseInlineGo : Nat → Str → List MarkdownNode
  | 0, _ => []
  | fuel + 1, rest =>
    if rest.isEmpty then []
    else
      let p := emphStep rest
      p.1 :: parseInlineGo fuel (rest.drop p.2)

/-- `parseInlineEmphasis` (lines 472-550). -/
def parseInlineEmphasis (text : Str) : List MarkdownNode :=
  parseInlineGo text.length text

/-! ## Line classifier (`parseLine`, lines 254-470)

Each regex of the cascade is embedded by the deterministic scan its
backtracking search denotes.  Two recurring facts justify the
determinisations: a greedy `\s+`/`\s*` followed by a non-whitespace
literal only matches at its maximal run (shorter runs leave a whitespace
character where the literal must start), and a lazy `(.+?)` grows its
capture one character at a time, testing the continuation before each
growth step, failing for good at a character outside the dot class. -/

/-- Header regex `^(#{1,6})\s+(.+)$` (line 256): greedy `#{1,6}` takes all
leading hashes up to six and cannot backtrack (every shorter cut leaves a
hash where `\s` must match); the `$`-anchored `(.+)` forces the capture to
be the whole remainder after the whitespace run, all dot-class.  The run
is maximal except that `\s+` gives one whitespace character back to the
otherwise-empty capture when the remainder is all whitespace. -/
def matchHeader (line : Str) : Option (Nat × Str) :=
  let lead := (line.takeWhile (· == '#')).length
  if 1 ≤ lead ∧ lead ≤ 6 then
    let r := line.drop lead
    let w := min (wsRun r) (r.length - 1)
    let content := r.drop w
    if 1 ≤ w ∧ content ≠ [] ∧ content.all jsDot then some (lead, content) else none
  else none

/-- Marker alternation `___|\|___\||__\*|__>(?:\s*\[[^\]]+\])?|__\[\]` of the
multi-field regex (line 267), tried in source order at the head of `s`;
returns the matched marker text and its length.  The optional bracket group
after `__>` is greedy: `\s*` only matches at its maximal run (a shorter run
leaves whitespace where `[` must be), `[^\]]+` is the maximal bracket-free
run, and the group is dropped entirely when `]` does not follow. -/
def matchMarker (s : Str) : Option (Str × Nat) :=
  if begins "___".data s then some ("___".data, 3)
  else if begins "|___|".data s then some ("|___|".data, 5)
  else if begins "__*".data s then some ("__*".data, 3)
  else if begins "__>".data s then
    let r := s.drop 3
    let w := wsRun r
    match r.drop w with
    | '[' :: r2 =>
      let run := r2.takeWhile (· != ']')
      if 1 ≤ run.length ∧ begins [']'] (r2.drop run.length) then
        some (s.take (3 + w + 1 + run.length + 1), 3 + w + 1 + run.length + 1)
      else some ("__>".data, 3)
    | _ => some ("__>".data, 3)
  else if begins "__[]".data s then some ("__[]".data, 4)
  else none

/-- One anchored attempt of the multi-field regex
`(.+?)\s+(___|\|___\||__\*|__>(?:\s*\[[^\]]+\])?|__\[\])` (line 267) with
the match forced to start at the head of the input: the lazy label grows a
character at a time (first argument accumulates it reversed), and after
each growth step the greedy `\s+` plus marker continuation is tried at its
maximal whitespace run (markers start with `_` or `|`, never whitespace,
so shorter runs cannot match).  Returns label, marker and total length. -/
def fieldAt : Str → Str → Option (Str × Str × Nat)
  | _, [] => none
  | accRev, c :: rs =>
    if jsDot c then
      let w := wsRun rs
      if 1 ≤ w then
        match matchMarker (rs.drop w) with
        | some (m, ml) => some ((c :: accRev).reverse, m, (accRev.length + 1) + w + ml)
        | none => fieldAt (c :: accRev) rs
      else fieldAt (c :: accRev) rs
    else none

/-- Leftmost match of the multi-field regex: tries each start offset in
order (the JS engine's unanchored search).  Returns label, marker, match
length and start offset. -/
def fieldSearch : Str → Option (Str × Str × Nat × Nat)
  | [] => none
  | c :: rs =>
    match fieldAt [] (c :: rs) with
    | some (l, m, len) => some (l, m, len, 0)
    | none => (fieldSearch rs).map (fun q => (q.1, q.2.1, q.2.2.1, q.2.2.2 + 1))

/-- `matchAll` loop for the multi-field regex: collect non-overlapping
leftmost matches, resuming after each (every match spans at least five
characters, so `s.length` iterations of fuel always suffice). -/
def fieldMatchesGo : Nat → Str → List (Str × Str)
  | 0, _ => []
  | fuel + 1, s =>
    match fieldSearch s with
    | none => []
    | some (l, m, len, off) => (l, m) :: fieldMatchesGo fuel (s.drop (off + len))

/-- `[...line.matchAll(fieldPattern)]` (line 268), keeping each match's
label and marker captures. -/
def fieldMatches (line : Str) : List (Str × Str) := fieldMatchesGo line.length line

/-- Unanchored `\[([^\]]+)\]` (line 295): leftmost `[` followed by a
non-empty bracket-free run closed by `]`; on failure the search restarts
one character later. -/
def bracketOpts : Str → Option Str
  | [] => none
  | '[' :: rs =>
    let run := rs.takeWhile (· != ']')
    if 1 ≤ run.length ∧ begins [']'] (rs.drop run.length) then some run
    else bracketOpts rs
  | _ :: rs => bracketOpts rs

/-- The per-match builder of the multi-field branch (lines 273-318). -/
def fieldBuild (p : Str × Str) : MarkdownNode :=
  let label := trim p.1
  let m := p.2
  if m = "__*".data then
    mkNode { type := .input, label := some label, inputType := some .password }
  else if m = "|___|".data then
    mkNode { type := .textarea, label := some label }
  else if m = "__[]".data then
    mkNode { type := .checkbox, label := some label }
  else if begins "__>".data m then
    match bracketOpts m with
    | some run => mkNode { type := .dropdown, label := some label,
                           options := some (splitOptions run) }
    | none => mkNode { type := .dropdown, label := some label }
  else
    mkNode { type := .input, label := some label, inputType := some .text }

/-- Single-field regex `^(.+?)\s+MARKER$` (lines 324, 334, 343, 353, 390)
for a literal end marker: the marker is pinned to the suffix, the `\s+`
region must be all-whitespace so the lazy label stops exactly before the
maximal trailing whitespace run of the remaining body (give one character
of the run back to the label when the body is all whitespace), and a
non-dot character in that label dooms every longer label too. -/
def tailFieldLabel (marker : Str) (line : Str) : Option Str :=
  if finishes marker line then
    let body := line.take (line.length - marker.length)
    let w := min (body.reverse.takeWhile jsIsWs).length (body.length - 1)
    let label := body.take (body.length - w)
    if 1 ≤ w ∧ label ≠ [] ∧ label.all jsDot then some label else none
  else none

/-- Generic lazy-label scan `^(.+?)TAIL`: the label grows one dot-class
character at a time (accumulated reversed in the first argument) and the
tail matcher is tried on the remainder after each growth step. -/
def labelThen {α : Type} (tail : Str → Option α) : Str → Str → Option (Str × α)
  | _, [] => none
  | accRev, c :: rs =>
    if jsDot c then
      match tail rs with
      | some a => some ((c :: accRev).reverse, a)
      | none => labelThen tail (c :: accRev) rs
    else none

/-- Tail `\s+TOK\s+\[(.+?)\]$` of the radio-group regex (line 362) and of
the dropdown-with-options regex (line 376), after the label: both `\s+`
runs are maximal (the following literal starts with a non-whitespace
character), and the `$`-anchored lazy bracket capture is forced to span
from the `[` to the final character, which must be `]`. -/
def optListTail (tok : Str) (r : Str) : Option Str :=
  if 1 ≤ wsRun r then
    let r1 := r.drop (wsRun r)
    if begins tok r1 then
      let r2 := r1.drop tok.length
      if 1 ≤ wsRun r2 then
        match r2.drop (wsRun r2) with
        | '[' :: r3 =>
          if r3.getLast? = some ']' ∧ r3.dropLast ≠ [] ∧ r3.dropLast.all jsDot
          then some r3.dropLast else none
        | _ => none
      else none
    else none
  else none

/-- `^(.+?)\s+__\(\)\s+\[(.+?)\]$` (line 362): label and option-list text. -/
def radioGroupMatch (line : Str) : Option (Str × Str) :=
  labelThen (optListTail "__()".data) [] line

/-- `^(.+?)\s+__>\s+\[(.+?)\]$` (line 376): label and option-list text. -/
def dropdownOptionsMatch (line : Str) : Option (Str × Str) :=
  labelThen (optListTail "__>".data) [] line

/-- `^!\[([^\]]*)\]\(([^)]+)\)$` (line 399): both negated classes are
greedy maximal runs, and the `$` anchor pins the closing parenthesis to
the end of the line. -/
def imageMatch : Str → Option (Str × Str)
  | '!' :: '[' :: r =>
    let alt := r.takeWhile (· != ']')
    (match r.drop alt.length with
     | ']' :: '(' :: r2 =>
       let src := r2.takeWhile (· != ')')
       if 1 ≤ src.length ∧ r2.drop src.length = [')'] then some (alt, src) else none
     | _ => none)
  | _ => none

/-- Character class `[^\[\]|]` of the button regexes. -/
def allowedBtn (c : Char) : Bool := !(c == '[' || c == ']' || c == '|')

/-- Gate regex `^(\[\(?[^\[\]|]+\)?\]\s*)+$` (line 409).  One group
matches exactly when the maximal `[^\[\]|]` run after the `[` is
non-empty and is followed by `]`: the optional `\(?`/`\)?` cannot change
that (`(` and `)` belong to the class, and `]` never does, so every
backtracking branch reaches the same closing bracket), and a group is
followed by its maximal whitespace run.  The repetition must consume the
whole line. -/
def multiBtnGate : Nat → Str → Bool
  | 0, _ => false
  | fuel + 1, s =>
    match s with
    | '[' :: s0 =>
      let T := (s0.takeWhile allowedBtn).length
      if 1 ≤ T ∧ begins [']'] (s0.drop T) then
        let rest := s0.drop (T + 1)
        let rest2 := rest.drop (wsRun rest)
        if rest2.isEmpty then true else multiBtnGate fuel rest2
      else false
    | _ => false

/-- Continuation of the extraction regex `\[(\(?)[^\[\]|]+?(\)?)\]`
(line 411) after at least one content character: the lazy content stops
at the first `)]` pair (greedy `\)?` first) or lone `]`; returns the
length still to consume. -/
def btnScanRest : Str → Option Nat
  | ')' :: ']' :: _ => some 2
  | ']' :: _ => some 1
  | c :: rs => if allowedBtn c then (btnScanRest rs).map (· + 1) else none
  | [] => none

/-- Non-empty lazy `[^\[\]|]+?` content followed by `\)?\]`: length of
content plus closers. -/
def btnInner : Str → Option Nat
  | c :: rs => if allowedBtn c then (btnScanRest rs).map (· + 1) else none
  | [] => none

/-- One anchored attempt of the extraction regex at the head of `s`,
giving the full match length; the greedy `\(?` branch is tried first. -/
def btnMatchAt : Str → Option Nat
  | '[' :: s0 =>
    (match s0 with
     | '(' :: s1 =>
       (match btnInner s1 with
        | some l => some (2 + l)
        | none => (btnInner s0).map (fun l => 1 + l))
     | _ => (btnInner s0).map (fun l => 1 + l))
  | _ => none

/-- `line.match(/\[(\(?)[^\[\]|]+?(\)?)\]/g)` (line 411): all
non-overlapping leftmost matches, as matched substrings. -/
def btnCollect : Nat → Str → List Str
  | 0, _ => []
  | fuel + 1, s =>
    match s with
    | [] => []
    | _ :: rs =>
      match btnMatchAt s with
      | some len => s.take len :: btnCollect fuel (s.drop len)
      | none => btnCollect fuel rs

/-- Continuation of the per-button re-match regex `\[(\(?)(.+?)(\)?)\]`
(line 416) after at least one content character: lazy dot-class content,
stopping at the first `)]` (greedy `\)?`) or `]`; returns the remaining
captured content and whether the third group took a parenthesis. -/
def innerRest : Str → Option (Str × Bool)
  | ')' :: ']' :: _ => some ([], true)
  | ']' :: _ => some ([], false)
  | c :: rs => if jsDot c then (innerRest rs).map (fun p => (c :: p.1, p.2)) else none
  | [] => none

/-- Non-empty lazy `(.+?)` content followed by `(\)?)\]`. -/
def innerFrom : Str → Option (Str × Bool)
  | c :: rs => if jsDot c then (innerRest rs).map (fun p => (c :: p.1, p.2)) else none
  | [] => none

/-- One anchored attempt of the re-match regex: `(` taken greedily first;
returns first-group flag, content, third-group flag. -/
def innerAt : Str → Option (Bool × Str × Bool)
  | '[' :: s0 =>
    (match s0 with
     | '(' :: s1 =>
       (match innerFrom s1 with
        | some p => some (true, p.1, p.2)
        | none => (innerFrom s0).map (fun p => (false, p.1, p.2)))
     | _ => (innerFrom s0).map (fun p => (false, p.1, p.2)))
  | _ => none

/-- Unanchored leftmost search for the re-match regex (line 416). -/
def innerSearch : Str → Option (Bool × Str × Bool)
  | [] => none
  | c :: rs =>
    match innerAt (c :: rs) with
    | some x => some x
    | none => innerSearch rs

/-- Per-button builder of the multi-button branch (lines 415-432). -/
def btnBuild (btn : Str) : MarkdownNode :=
  match innerSearch btn with
  | some (g1, cont, g3) =>
    mkNode { type := .button, content := some cont,
             variant := some (if g1 ∧ g3 then .default else .outline) }
  | none =>
    mkNode { type := .button, content := some (btn.drop 1).dropLast,
             variant := some .outline }

/-- Optional class suffix `(?:\s*\|\s*(.+))?\]$` of the two single-button
regexes (lines 438, 452).  The greedy optional group is attempted first:
its first `\s*` only matches at its maximal run (`|` is not whitespace),
its second `\s*` backtracks just far enough to leave the `$`-anchored
`(.+)` capture non-empty, and a failed group attempt falls back to the
bare `\]$`.  Returns `none` for no match, `some none` for a match without
the class group, `some (some cls)` with the raw class capture. -/
def classTail (R : Str) : Option (Option Str) :=
  let grp : Option Str :=
    let R1 := R.drop (wsRun R)
    match R1 with
    | '|' :: R2 =>
      let w2 := min (wsRun R2) (R2.length - 2)
      let R3 := R2.drop w2
      if R3.getLast? = some ']' ∧ R3.dropLast ≠ [] ∧ R3.dropLast.all jsDot
      then some R3.dropLast else none
    | _ => none
  match grp with
  | some cls => some (some cls)
  | none => if R = [']'] then some none else none

/-- Lazy content scan of `^\[\((.+?)\)(?:\s*\|\s*(.+))?\]$` (line 438):
content grows one dot-class character at a time; after each step, if a
`)` follows, the class suffix is tried on the remainder. -/
def dfltBtnScan : Str → Str → Option (Str × Option Str)
  | _, [] => none
  | accRev, c :: rs =>
    if jsDot c then
      match rs with
      | ')' :: R =>
        (match classTail R with
         | some cls => some ((c :: accRev).reverse, cls)
         | none => dfltBtnScan (c :: accRev) rs)
      | _ => dfltBtnScan (c :: accRev) rs
    else none

/-- `^\[\((.+?)\)(?:\s*\|\s*(.+))?\]$` (line 438): raw content capture and
optional raw class capture. -/
def defaultButtonMatch : Str → Option (Str × Option Str)
  | '[' :: '(' :: r => dfltBtnScan [] r
  | _ => none

/-- Lazy content scan of `^\[([^|]+?)(?:\s*\|\s*(.+))?\]$` (line 452):
content is any non-`|` character (the class, unlike `.`, admits line
terminators), and the class suffix is tried after each growth step. -/
def outlineBtnScan : Str → Str → Option (Str × Option Str)
  | _, [] => none
  | accRev, c :: rs =>
    if c != '|' then
      match classTail rs with
      | some cls => some ((c :: accRev).reverse, cls)
      | none => outlineBtnScan (c :: accRev) rs
    else none

/-- `^\[([^|]+?)(?:\s*\|\s*(.+))?\]$` (line 452). -/
def buttonMatch : Str → Option (Str × Option Str)
  | '[' :: r => outlineBtnScan [] r
  | _ => none

/-- `className` spread of the single-button branches (lines 441/447 and
455/461): the raw capture is trimmed and dropped when empty (falsy). -/
def classOf (cls : Option Str) : Option Str :=
  match cls with
  | some c => if trim c = [] then none else some (trim c)
  | none => none

/-- `parseLine` (lines 254-470): the ordered classifier cascade. -/
def parseLine (line : Str) : Option MarkdownNode :=
  match matchHeader line with
  | some (lvl, content) =>
    some (mkNode { type := .header, level := some lvl,
                   children := some (parseInlineEmphasis content) })
  | none =>
  if 1 < (fieldMatches line).length then
    some (mkNode { type := .container,
                   children := some ((fieldMatches line).map fieldBuild) })
  else
  match tailFieldLabel "__*".data line with
  | some label =>
    some (mkNode { type := .input, label := some label, inputType := some .password })
  | none =>
  match tailFieldLabel "|___|".data line with
  | some label => some (mkNode { type := .textarea, label := some label })
  | none =>
  match tailFieldLabel "___".data line with
  | some label =>
    some (mkNode { type := .input, label := some label, inputType := some .text })
  | none =>
  match tailFieldLabel "__[]".data line with
  | some label => some (mkNode { type := .checkbox, label := some label })
  | none =>
  match radioGroupMatch line with
  | some (label, contents) =>
    some (mkNode { type := .radiogroup, label := some label,
                   options := some (splitOptions contents) })
  | none =>
  match dropdownOptionsMatch line with
  | some (label, contents) =>
    some (mkNode { type := .dropdown, label := some label,
                   options := some (splitOptions contents) })
  | none =>
  match tailFieldLabel "__>".data line with
  | some label => some (mkNode { type := .dropdown, label := some label })
  | none =>
  match imageMatch line with
  | some (alt, src) =>
    some (mkNode { type := .image, alt := some alt, src := some src })
  | none =>
  if multiBtnGate line.length line ∧ 1 < (btnCollect line.length line).length then
    some (mkNode { type := .container,
                   children := some ((btnCollect line.length line).map btnBuild) })
  else
  match defaultButtonMatch line with
  | some (content, cls) =>
    some (mkNode { type := .button, content := some content,
                   variant := some .default, className := classOf cls })
  | none =>
  match buttonMatch line with
  | some (content, cls) =>
    some (mkNode { type := .button, content := some (trim content),
                   variant := some .outline, className := classOf cls })
  | none =>
  some (mkNode { type := .text, children := some (parseInlineEmphasis line) })

/-! ## Top-level scanner and container parsers (`parse`, `parseCard`,
`parseContainer`, lines 14-252)

The mutable index loops become fuel-indexed recursions; the nested-call
wrappers also consume one unit of fuel, so two units per input line plus
one always suffice (each loop iteration advances the index by at least
one, nested parses start one line past their opener, and a call bottoming
out past the last line returns the same value at every fuel). -/

/-- Card-opener regex `^\[--\s*(.*)$` (lines 74, 134): after the literal,
the maximal whitespace run, then the capture, which the `$` anchor forces
to be the whole all-dot-class remainder (a non-dot character anywhere in
it dooms every shorter whitespace run as well). -/
def matchCardOpen : Str → Option Str
  | '[' :: '-' :: '-' :: r =>
    let rest := r.drop (wsRun r)
    if rest.all jsDot then some rest else none
  | _ => none

/-- Grid-opener regex `^\[grid\s+(.*)$` (lines 83, 143). -/
def matchGridOpen (line : Str) : Option Str :=
  if begins "[grid".data line then
    let r := line.drop 5
    let rest := r.drop (wsRun r)
    if 1 ≤ wsRun r ∧ rest.all jsDot then some rest else none
  else none

/-- Div-opener regex `^\[\s*(.*)$` (lines 92, 152); the callers combine it
with the `!line.includes("]")` guard. -/
def matchDivOpen : Str → Option Str
  | '[' :: r =>
    let rest := r.drop (wsRun r)
    if rest.all jsDot then some rest else none
  | _ => none

/-- The per-line preprocessing of every loop: raw line when
`preserveWhitespace` is set, trimmed otherwise (lines 21, 38, 49, 123, 191). -/
def procLine (opts : ParserOptions) (raw : Str) : Str :=
  if opts.preserveWhitespace then raw else trim raw

/-- Diagnostic string of the strict-mode branch (line 104). -/
def errMsg (n : Nat) (line : Str) : Str :=
  "Line ".data ++ (Nat.repr n).data ++ ": Unable to parse \"".data ++ line ++ "\"".data

/-- The table row loop (lines 47-63): consume consecutive lines that are
non-empty and contain a pipe, splitting each into cells; stop (without
consuming) at the first line failing the test. -/
def tableRowsGo (opts : ParserOptions) : Nat → List Str → Nat → List (List Str) →
    List (List Str) × Nat
  | 0, _, i, acc => (acc.reverse, i)
  | fuel + 1, lines, i, acc =>
    match lines.get? i with
    | none => (acc.reverse, i)
    | some raw =>
      let rowLine := procLine opts raw
      if rowLine = [] ∨ ¬ containsChar '|' rowLine then (acc.reverse, i)
      else tableRowsGo opts fuel lines (i + 1) (splitCells rowLine :: acc)

/-- Which container construct a nested parse builds (the two source
routines `parseCard` and `parseContainer` run the identical scanning loop
and differ only in the closer token and the node they build, so the loop
is embedded once, parameterized by the closer). -/
inductive ContKind where
  | card | grid | div
deriving DecidableEq, Repr

/-- Closer token: `--]` for cards (line 126), `]` for grids/divs (line 194). -/
def contCloser : ContKind → Str
  | .card => "--]".data
  | .grid => "]".data
  | .div => "]".data

/-- The node a finished container parse builds: cards carry the tokenized
title when one was given (lines 169-176), grids store the config verbatim
(line 243), divs store a non-empty config as class (line 244). -/
def contNode : ContKind → Option Str → Str → List MarkdownNode → MarkdownNode
  | .card, title, _, kids =>
    mkNode { type := .card,
             titleChildren := match title with
               | some t => if t = [] then none else some (parseInlineEmphasis t)
               | none => none,
             children := some kids }
  | .grid, _, config, kids =>
    mkNode { type := .grid, gridConfig := some config, children := some kids }
  | .div, _, config, kids =>
    mkNode { type := .div,
             className := if config ≠ [] then some config else none,
             children := some kids }

/-- The shared scanning loop of `parseCard` (lines 122-167) and
`parseContainer` (lines 190-235): stops at the closer line that brings the
depth counter to zero (the counter is never incremented; nested openers
recurse instead, and a closer line at depth above one falls through to the
ordinary checks, as in the source), recurses into nested card, grid and
div openers in that order (building the nested node as the corresponding
wrapper does), and classifies every other non-blank line.  Returns the
children and the index of the line at which the loop stopped. -/
def contGo (opts : ParserOptions) : Nat → Str → List Str → Nat → Nat →
    List MarkdownNode → List MarkdownNode × Nat
  | 0, _, _, i, _, acc => (acc.reverse, i)
  | fuel + 1, closer, lines, i, depth, acc =>
    if depth = 0 then (acc.reverse, i)
    else
      match lines.get? i with
      | none => (acc.reverse, i)
      | some raw =>
        let line := procLine opts raw
        if line = closer ∧ depth - 1 = 0 then (acc.reverse, i)
        else
          let depth1 := if line = closer then depth - 1 else depth
          match matchCardOpen line with
          | some t =>
            let r := contGo opts fuel (contCloser .card) lines (i + 1) 1 []
            contGo opts fuel closer lines (r.2 + 1) depth1
              (contNode .card (if t = [] then none else some t) [] r.1 :: acc)
          | none =>
          match matchGridOpen line with
          | some cfg =>
            let r := contGo opts fuel (contCloser .grid) lines (i + 1) 1 []
            contGo opts fuel closer lines (r.2 + 1) depth1
              (contNode .grid none cfg r.1 :: acc)
          | none =>
          match (if containsChar ']' line then none else matchDivOpen line) with
          | some cfg =>
            let r := contGo opts fuel (contCloser .div) lines (i + 1) 1 []
            contGo opts fuel closer lines (r.2 + 1) depth1
              (contNode .div none cfg r.1 :: acc)
          | none =>
          if line ≠ [] then
            match parseLine line with
            | some n => contGo opts fuel closer lines (i + 1) depth1 (n :: acc)
            | none => contGo opts fuel closer lines (i + 1) depth1 acc
          else contGo opts fuel closer lines (i + 1) depth1 acc

/-- `parseCard` (lines 112-177): scan from the line after the opener, then
build the card node; `nextIndex` is one past the line the loop stopped at. -/
def parseCard (opts : ParserOptions) (fuel : Nat) (lines : List Str)
    (startIndex : Nat) (title : Option Str) : MarkdownNode × Nat :=
  let r := contGo opts fuel (contCloser .card) lines (startIndex + 1) 1 []
  (contNode .card title [] r.1, r.2 + 1)

/-- `parseContainer` (lines 179-252) for grids and divs. -/
def parseContainer (opts : ParserOptions) (fuel : Nat) (lines : List Str)
    (startIndex : Nat) (kind : ContKind) (config : Str) : MarkdownNode × Nat :=
  let r := contGo opts fuel (contCloser kind) lines (startIndex + 1) 1 []
  (contNode kind none config r.1, r.2 + 1)

/-- Assemble the returned `ParseResult` (line 109): the error list is
surfaced only when non-empty. -/
def finishResult (nodes : List MarkdownNode) (errs : List Str) : ParseResult :=
  { nodes := nodes.reverse, errors := if errs = [] then none else some errs }

/-- Separator detection of the table branch (lines 36-44): the line after
the header is consumed exactly when it contains both `-` and `|`. -/
def sepCount (opts : ParserOptions) (lines : List Str) (i : Nat) : Nat :=
  match lines.get? (i + 1) with
  | some raw2 =>
    let separatorLine := procLine opts raw2
    if containsChar '-' separatorLine ∧ containsChar '|' separatorLine then 1 else 0
  | none => 0

/-- The dispatch loop of `parse` (lines 20-107): skip blank lines, detect
table starts, card openers, grid openers, div openers (guarded by the
absence of `]`), and hand everything else to `parseLine`, recording a
strict-mode diagnostic when the classifier returns nothing. -/
def parseGo (opts : ParserOptions) : Nat → List Str → Nat → List MarkdownNode →
    List Str → ParseResult
  | 0, _, _, nodes, errs => finishResult nodes errs
  | fuel + 1, lines, i, nodes, errs =>
    match lines.get? i with
    | none => finishResult nodes errs
    | some raw =>
      let line := procLine opts raw
      if line = [] then parseGo opts fuel lines (i + 1) nodes errs
      else if containsChar '|' line ∧ begins ['|'] (trim line) then
        let headers := splitCells line
        let r := tableRowsGo opts fuel lines (i + 1 + sepCount opts lines i) []
        parseGo opts fuel lines r.2
          (mkNode { type := .table, headers := some headers, rows := some r.1 } :: nodes)
          errs
      else
        match matchCardOpen line with
        | some t =>
          let r := parseCard opts fuel lines i (if t = [] then none else some t)
          parseGo opts fuel lines r.2 (r.1 :: nodes) errs
        | none =>
        match matchGridOpen line with
        | some cfg =>
          let r := parseContainer opts fuel lines i .grid cfg
          parseGo opts fuel lines r.2 (r.1 :: nodes) errs
        | none =>
        match (if containsChar ']' line then none else matchDivOpen line) with
        | some cfg =>
          let r := parseContainer opts fuel lines i .div cfg
          parseGo opts fuel lines r.2 (r.1 :: nodes) errs
        | none =>
        match parseLine line with
        | some n => parseGo opts fuel lines (i + 1) (n :: nodes) errs
        | none =>
          parseGo opts fuel lines (i + 1) nodes
            (if opts.strict then errs ++ [errMsg (i + 1) line] else errs)

/-- `parse` (lines 14-110): split on newlines and run the dispatch loop
(two fuel units per line suffice: see the progress lemmas below). -/
def parse (opts : ParserOptions) (markdown : Str) : ParseResult :=
  let lines := splitOn '\n' markdown
  parseGo opts (2 * lines.length + 1) lines 0 [] []

/-! ## Spec-modelled workflow and button-navigation parsing

The `src/` snapshot of `MarkdownParser.ts` predates the workflow feature:
`types.ts` declares `navigateTo`, `initialScreen` and the
`workflow`/`screen` node types, and `ShadcnCodeGenerator.ts` consumes
them, but the parser routines that produce them (`parseWorkflow`,
`parseScreen`, and button parsing with a navigation target) are not in
the snapshot.  They are modelled here from the specification. -/

/-- Modelled from the spec: split at the first occurrence of a literal
token, returning the text before and after it. -/
def splitTok (tok : Str) : Str → Option (Str × Str)
  | [] => none
  | c :: cs =>
    if begins tok (c :: cs) then some ([], (c :: cs).drop tok.length)
    else (splitTok tok cs).map (fun p => (c :: p.1, p.2))

/-- Modelled from the spec: inside a button's brackets, the navigation
target is introduced by a literal `->` after the label and before the
closing bracket or the custom-class separator `|`; the class suffix
follows a `|`.  Returns the optional target and optional class string. -/
def navAndClasses (s : Str) : Option Str × Option Str :=
  match splitTok "->".data s with
  | some (_, after) =>
    (match splitTok "|".data after with
     | some (t, cls) => (some (trim t), if trim cls = [] then none else some (trim cls))
     | none => (some (trim after), none))
  | none =>
    (match splitTok "|".data s with
     | some (_, cls) => (none, if trim cls = [] then none else some (trim cls))
     | none => (none, none))

/-- Modelled from the spec: single-button parsing with navigation
(§4.3 steps 12-13), absent from the `src/` parser snapshot.  A
default-variant button wraps its label in parentheses, `[(label)]`; an
outline-variant button is bare, `[label]`; either may carry ` -> target`
and/or ` | classes` between the label and the closing bracket. -/
def parseNavButton (line : Str) : Option MarkdownNode :=
  match line with
  | '[' :: r =>
    if r.getLast? = some ']' then
      let body := r.dropLast
      match body with
      | '(' :: b2 =>
        let label := b2.takeWhile (· != ')')
        (match b2.drop label.length with
         | ')' :: after =>
           let nc := navAndClasses after
           some (mkNode { type := .button, content := some label,
                          variant := some .default, navigateTo := nc.1,
                          className := nc.2 })
         | _ => none)
      | _ =>
        let lab :=
          match splitTok "->".data body with
          | some (l, _) => l
          | none =>
            match splitTok "|".data body with
            | some (l, _) => l
            | none => body
        let nc := navAndClasses body
        some (mkNode { type := .button, content := some (trim lab),
                       variant := some .outline, navigateTo := nc.1,
                       className := nc.2 })
    else none
  | _ => none

/-- Modelled from the spec: the fallback initial-screen literal used when
a workflow has no screens (the in-repo consumer
`ShadcnCodeGenerator.ts:389` uses the same literal). -/
def workflowFallback : Str := "home".data

/-- Modelled from the spec: the workflow node's initial-screen id is taken
from an explicit directive if present, otherwise defaults to the id of
its first child screen, or the fallback literal if there are no screens. -/
def workflowInitialScreen (explicit : Option Str) (screens : List MarkdownNode) : Str :=
  match explicit with
  | some e => e
  | none =>
    match screens with
    | [] => workflowFallback
    | s :: _ =>
      match s.id with
      | some a => a
      | none => workflowFallback

/-- Modelled from the spec: the workflow node built by the missing
`parseWorkflow`, from the optional explicit directive and the parsed
child screens. -/
def mkWorkflowNode (explicit : Option Str) (screens : List MarkdownNode) : MarkdownNode :=
  mkNode { type := .workflow,
           initialScreen := some (workflowInitialScreen explicit screens),
           children := some screens }

/-- Modelled from the spec: a screen node with its mandatory identifier. -/
def mkScreenNode (sid : Str) (body : List MarkdownNode) : MarkdownNode :=
  mkNode { type := .screen, id := some sid, children := some body }

/-! ## Theorems -/

@[simp] theorem fields_mkNode (f : NodeFields MarkdownNode) : (mkNode f).fields = f := rfl

@[simp] theorem type_mkNode (f : NodeFields MarkdownNode) : (mkNode f).type = f.type := rfl

@[simp] theorem options_mkNode (f : NodeFields MarkdownNode) :
    (mkNode f).options = f.options := rfl

@[simp] theorem children_mkNode (f : NodeFields MarkdownNode) :
    (mkNode f).children = f.children := rfl

@[simp] theorem initialScreen_mkNode (f : NodeFields MarkdownNode) :
    (mkNode f).initialScreen = f.initialScreen := rfl

@[simp] theorem id_mkNode (f : NodeFields MarkdownNode) : (mkNode f).id = f.id := rfl

/-- The tokenizer loop returns nothing on empty input at any fuel. -/
theorem parseInlineGo_nil (fuel : Nat) : parseInlineGo fuel [] = [] := by
  cases fuel <;> simp [parseInlineGo]

/-- Each tokenizer iteration advances the position by at least one
character, on every suffix. -/
theorem emphStep_pos (rest : Str) : 1 ≤ (emphStep rest).2 := by
  unfold emphStep
  repeat' split
  all_goals dsimp only
  all_goals try omega
  all_goals split
  all_goals dsimp only
  all_goals omega

theorem parseInlineGo_cons (fuel : Nat) (c : Char) (cs : Str) :
    parseInlineGo (fuel + 1) (c :: cs) =
      (emphStep (c :: cs)).1 ::
        parseInlineGo fuel ((c :: cs).drop (emphStep (c :: cs)).2) := by
  simp [parseInlineGo]

theorem parseInlineGo_stable :
    ∀ (fuel : Nat) (text : Str), text.length ≤ fuel →
      parseInlineGo fuel text = parseInlineGo text.length text := by
  intro fuel
  induction fuel using Nat.strong_induction_on with
  | _ fuel ih =>
    intro text h
    match fuel, text with
    | fuel, [] => simp [parseInlineGo_nil]
    | 0, c :: cs => simp at h
    | f + 1, c :: cs =>
      have hpos := emphStep_pos (c :: cs)
      have hd : ((c :: cs).drop (emphStep (c :: cs)).2).length ≤ cs.length := by
        simp [List.length_drop]
        omega
      have hcs : cs.length ≤ f := by simp at h; omega
      have hlen : (c :: cs).length = cs.length + 1 := by simp
      rw [hlen, parseInlineGo_cons f, parseInlineGo_cons cs.length,
        ih f (Nat.lt_succ_self f) _ (le_trans hd hcs),
        ih cs.length (by omega) _ hd]


/-- Progress of the container scanning loop, at every fuel: the line index
never moves backwards. -/
theorem contGo_le (opts : ParserOptions) :
    ∀ (fuel : Nat) (closer : Str) (lines : List Str) (i d : Nat)
      (acc : List MarkdownNode), i ≤ (contGo opts fuel closer lines i d acc).2 := by
  intro fuel
  induction fuel with
  | zero => intro closer lines i d acc; simp [contGo]
  | succ f ih =>
    intro closer lines i d acc
    rw [contGo]
    repeat' (dsimp only; repeat' split)
    all_goals try omega
    all_goals
      first
      | exact le_trans (by have := ih (contCloser .card) lines (i + 1) 1 []; omega)
          (ih closer lines _ _ _)
      | exact le_trans (by have := ih (contCloser .grid) lines (i + 1) 1 []; omega)
          (ih closer lines _ _ _)
      | exact le_trans (by have := ih (contCloser .div) lines (i + 1) 1 []; omega)
          (ih closer lines _ _ _)
      | exact le_trans (Nat.le_succ _) (ih closer lines _ _ _)

/-- The wrappers return an index strictly past their opener. -/
theorem parseCard_lt (opts : ParserOptions) (fuel : Nat) (lines : List Str)
    (startIndex : Nat) (title : Option Str) :
    startIndex + 1 ≤ (parseCard opts fuel lines startIndex title).2 := by
  have := contGo_le opts fuel (contCloser .card) lines (startIndex + 1) 1 []
  unfold parseCard
  dsimp only
  omega

theorem parseContainer_lt (opts : ParserOptions) (fuel : Nat) (lines : List Str)
    (startIndex : Nat) (kind : ContKind) (config : Str) :
    startIndex + 1 ≤ (parseContainer opts fuel lines startIndex kind config).2 := by
  have := contGo_le opts fuel (contCloser kind) lines (startIndex + 1) 1 []
  unfold parseContainer
  dsimp only
  omega

/-- The classifier is total: the fallback rule makes every branch of
`parseLine` return a node. -/
theorem parseLine_isSome (line : Str) : (parseLine line).isSome := by
  unfold parseLine
  repeat' (dsimp only; repeat' split)
  all_goals simp

/-- Restatement of totality: the classifier never returns `none`. -/
theorem parseLine_ne_none (line : Str) : parseLine line ≠ none := by
  have h := parseLine_isSome line
  intro hn
  rw [hn] at h
  simp at h

/-- The strict-mode diagnostic branch of the dispatch loop is unreachable:
the error accumulator is returned exactly as it was passed in. -/
theorem parseGo_errors (opts : ParserOptions) :
    ∀ (fuel : Nat) (lines : List Str) (i : Nat) (nodes : List MarkdownNode)
      (errs : List Str),
      (parseGo opts fuel lines i nodes errs).errors =
        (if errs = [] then none else some errs) := by
  intro fuel
  induction fuel with
  | zero => intro lines i nodes errs; simp [parseGo, finishResult]
  | succ f ih =>
    intro lines i nodes errs
    rw [parseGo]
    repeat' (dsimp only; repeat' split)
    all_goals first
      | simp_all [finishResult, parseLine_ne_none]
      | (rw [ih]; simp_all)

/-- `parse` never surfaces diagnostics, whatever the options. -/
theorem parse_errors_none (opts : ParserOptions) (md : Str) :
    (parse opts md).errors = none := by
  unfold parse
  rw [parseGo_errors]
  simp

/-- C8: the Line Classifier is total — `parseLine` always returns a node,
so the strict-mode "Unable to parse" branch is unreachable and `parse`
returns a result with no errors list for every input and every options
configuration, `strict: true` included. -/
theorem claimC8 :
    (∀ line : Str, (parseLine line).isSome) ∧
    (∀ (opts : ParserOptions) (md : Str), (parse opts md).errors = none) :=
  ⟨parseLine_isSome, parse_errors_none⟩

/-- C1: parsing is total.  Every iteration of the inline tokenizer loop
advances its position by at least one character; consequently the
tokenizer computes the same answer at any fuel at least the text length
(it terminates within that many iterations).  The container-scanning loop
never moves its line index backwards, and the card/container parsers
return an index strictly past their opener, so the top-level dispatch
loop also advances at every step. -/
theorem claimC1 :
    (∀ rest : Str, rest ≠ [] → 1 ≤ (emphStep rest).2) ∧
    (∀ (fuel : Nat) (text : Str), text.length ≤ fuel →
      parseInlineGo fuel text = parseInlineEmphasis text) ∧
    (∀ (opts : ParserOptions) (fuel : Nat) (closer : Str) (lines : List Str)
       (i d : Nat) (acc : List MarkdownNode),
      i ≤ (contGo opts fuel closer lines i d acc).2) ∧
    (∀ (opts : ParserOptions) (fuel : Nat) (lines : List Str) (i : Nat)
       (t : Option Str), i + 1 ≤ (parseCard opts fuel lines i t).2) ∧
    (∀ (opts : ParserOptions) (fuel : Nat) (lines : List Str) (i : Nat)
       (k : ContKind) (cfg : Str), i + 1 ≤ (parseContainer opts fuel lines i k cfg).2) := by
  refine ⟨fun rest _ => emphStep_pos rest, ?_, ?_, ?_, ?_⟩
  · intro fuel text h
    unfold parseInlineEmphasis
    exact parseInlineGo_stable fuel text h
  · intro opts fuel closer lines i d acc
    exact contGo_le opts fuel closer lines i d acc
  · intro opts fuel lines i t
    exact parseCard_lt opts fuel lines i t
  · intro opts fuel lines i k cfg
    exact parseContainer_lt opts fuel lines i k cfg

/-- Witness for C1 at a concrete input. -/
theorem claimC1_witness :
    (['a'] : Str) ≠ [] ∧ 1 ≤ (emphStep ['a']).2 ∧
    parseInlineGo 7 "ab".data = parseInlineEmphasis "ab".data ∧
    3 ≤ (parseCard defaultOptions 5 ["x".data] 2 none).2 := by
  refine ⟨by decide, claimC1.1 ['a'] (by decide), ?_, ?_⟩
  · exact claimC1.2.1 7 "ab".data (by decide)
  · exact claimC1.2.2.2.1 defaultOptions 5 ["x".data] 2 none

/-- C2 (spec-modelled): `"[(Next) -> step2]"` parses to a single default
button with content `Next` and navigation target `step2`, and
`"[Back -> step1]"` to a single outline button with content `Back` and
target `step1`. -/
theorem claimC2 :
    parseNavButton "[(Next) -> step2]".data =
      some (mkNode { type := .button, content := some "Next".data,
                     variant := some .default, navigateTo := some "step2".data }) ∧
    parseNavButton "[Back -> step1]".data =
      some (mkNode { type := .button, content := some "Back".data,
                     variant := some .outline, navigateTo := some "step1".data }) := by
  constructor <;> rfl

/-- C3 (spec-modelled): a workflow with no explicit initial-screen
directive takes its first child screen's id as `initialScreen`, and the
fallback literal when it has no screens. -/
theorem claimC3 :
    (∀ (s : MarkdownNode) (rest : List MarkdownNode) (a : Str),
      s.id = some a →
        (mkWorkflowNode none (s :: rest)).initialScreen = some a) ∧
    (mkWorkflowNode none []).initialScreen = some workflowFallback := by
  constructor
  · intro s rest a h
    simp [mkWorkflowNode, workflowInitialScreen, h]
  · rfl

/-- Witness for C3 at a concrete three-screen workflow. -/
theorem claimC3_witness :
    (mkWorkflowNode none
        [mkScreenNode "a".data [], mkScreenNode "b".data [],
         mkScreenNode "c".data []]).initialScreen = some "a".data :=
  claimC3.1 (mkScreenNode "a".data [])
    [mkScreenNode "b".data [], mkScreenNode "c".data []] "a".data rfl

/-- Every node the multi-button builder produces is a button. -/
theorem btnBuild_type (b : Str) : (btnBuild b).type = NodeType.button := by
  unfold btnBuild
  repeat' split
  all_goals rfl

/-- Inversion on the classifier cascade: which branches can produce a
header, a container, or a radio group, and what they guarantee. -/
theorem parseLine_cases (line : Str) (n : MarkdownNode)
    (h : parseLine line = some n) :
    (n.type = NodeType.header → matchHeader line ≠ none) ∧
    (n.type = NodeType.container →
      2 ≤ (fieldMatches line).length ∨
        ∀ c ∈ n.children.getD [], c.type = NodeType.button) ∧
    (n.type = NodeType.radiogroup →
      ∃ opts, n.options = some opts ∧ ∀ o ∈ opts, o ≠ []) := by
  unfold parseLine at h
  repeat' split at h
  all_goals (injection h with h; subst h)
  all_goals refine ⟨fun ht => ?_, fun ht => ?_, fun ht => ?_⟩
  all_goals try simp_all
  all_goals first
    | omega
    | exact Or.inr (fun a _ => btnBuild_type a)
    | (intro o ho hnil
       subst hnil
       simp only [splitOptions, List.mem_filter] at ho
       simp at ho)

/-- C5 counterexample: `"# a ___ b ___"` carries two field-marker matches,
yet `parseLine` classifies it as a header (the header rule runs first),
not as a container of two fields as the claim requires. -/
theorem claimC5_cex :
    (fieldMatches "# a ___ b ___".data).length = 2 ∧
    (parseLine "# a ___ b ___".data).map MarkdownNode.type = some NodeType.header := by
  constructor <;> rfl

/-- C5 as amended: on a line the header rule does not claim, two or more
field-pattern matches produce exactly the synthetic container with one
child per match in source order; with exactly one match the grouping rule
does not fire — any container still returned holds only buttons (the
multi-button rule), never form fields. -/
theorem claimC5 (line : Str) :
    (matchHeader line = none → 2 ≤ (fieldMatches line).length →
      parseLine line =
        some (mkNode { type := .container,
                       children := some ((fieldMatches line).map fieldBuild) }) ∧
      ((fieldMatches line).map fieldBuild).length = (fieldMatches line).length) ∧
    ((fieldMatches line).length = 1 →
      ∀ n, parseLine line = some n → n.type = NodeType.container →
        ∀ c ∈ n.children.getD [], c.type = NodeType.button) := by
  constructor
  · intro hH hcnt
    refine ⟨?_, by simp⟩
    unfold parseLine
    rw [hH]
    simp only [if_pos (by omega : 1 < (fieldMatches line).length)]
  · intro hone n h hcont
    rcases (parseLine_cases line n h).2.1 hcont with h2 | hbtn
    · omega
    · exact hbtn

/-- Witness for C5 at a concrete two-field line. -/
theorem claimC5_witness :
    parseLine "First ___ Last ___".data =
      some (mkNode { type := .container,
                     children :=
                       some ((fieldMatches "First ___ Last ___".data).map fieldBuild) }) :=
  ((claimC5 "First ___ Last ___".data).1 (by rfl) (by decide)).1

/-- C9 counterexample: `"a __() [,]"` parses to a radio group whose
options list is empty (the bracket contents are a lone comma, so every
split segment trims to the empty string and is discarded), refuting the
claim that the list is never empty. -/
theorem claimC9_cex :
    (parseLine "a __() [,]".data).map MarkdownNode.type = some NodeType.radiogroup ∧
    (parseLine "a __() [,]".data).map MarkdownNode.options = some (some []) := by
  constructor <;> rfl

/-- C9 as amended: every radio group the classifier produces carries an
options list (comma-split, trimmed, empty entries discarded, so no entry
is the empty string), but the list itself can be empty when the bracket
contents hold only commas and whitespace. -/
theorem claimC9 (line : Str) (n : MarkdownNode) (h : parseLine line = some n)
    (ht : n.type = NodeType.radiogroup) :
    ∃ opts, n.options = some opts ∧ ∀ o ∈ opts, o ≠ [] :=
  (parseLine_cases line n h).2.2 ht

/-- Witness for C9 at a concrete radio-group line. -/
theorem claimC9_witness :
    ∃ opts,
      ((parseLine "Gender __() [M, F]".data).getD
          (mkNode { type := .text })).options = some opts ∧
      ∀ o ∈ opts, o ≠ [] :=
  claimC9 "Gender __() [M, F]".data _ rfl rfl

/-- C10 counterexample: `"####### x ___"` starts with seven hashes, so it
is not a header, but it does not fall through to the text fallback either:
the single-text-input rule claims it first. -/
theorem claimC10_cex :
    7 ≤ ("####### x ___".data.takeWhile (· == '#')).length ∧
    (parseLine "####### x ___".data).map MarkdownNode.type = some NodeType.input := by
  constructor
  · decide
  · rfl

/-- C10 as amended: a line beginning with seven or more hashes never
parses as a header (the header pattern caps at six); it reaches the text
fallback — a text node holding the inline tokenization of the whole
line — when none of the intermediate field, image or button rules
claims it first. -/
theorem claimC10 (line : Str)
    (h7 : 7 ≤ (line.takeWhile (· == '#')).length) :
    matchHeader line = none ∧
    (∀ n, parseLine line = some n → n.type ≠ NodeType.header) ∧
    ((fieldMatches line).length ≤ 1 →
     tailFieldLabel "__*".data line = none →
     tailFieldLabel "|___|".data line = none →
     tailFieldLabel "___".data line = none →
     tailFieldLabel "__[]".data line = none →
     radioGroupMatch line = none →
     dropdownOptionsMatch line = none →
     tailFieldLabel "__>".data line = none →
     imageMatch line = none →
     ¬(multiBtnGate line.length line = true ∧
        1 < (btnCollect line.length line).length) →
     defaultButtonMatch line = none →
     buttonMatch line = none →
     parseLine line =
       some (mkNode { type := .text,
                      children := some (parseInlineEmphasis line) })) := by
  have hH : matchHeader line = none := by
    unfold matchHeader
    have hc : ¬(1 ≤ (line.takeWhile (· == '#')).length ∧
        (line.takeWhile (· == '#')).length ≤ 6) := by omega
    simp [hc]
  refine ⟨hH, ?_, ?_⟩
  · intro n h hn
    exact absurd hH ((parseLine_cases line n h).1 hn)
  · intro hcnt h1 h2 h3 h4 h5 h6 h7d h8 h9 h10 h11
    unfold parseLine
    rw [hH]
    simp only [if_neg (by omega : ¬1 < (fieldMatches line).length),
      h1, h2, h3, h4, h5, h6, h7d, h8, if_neg h9, h10, h11]

/-- Witness for C10 at a concrete seven-hash line. -/
theorem claimC10_witness :
    parseLine "####### hello".data =
      some (mkNode { type := .text,
                     children := some (parseInlineEmphasis "####### hello".data) }) :=
  (claimC10 "####### hello".data (by decide)).2.2 (by decide) rfl rfl rfl rfl rfl rfl
    rfl rfl (by decide) rfl rfl

/-- A character of the trimmed line occurs in the line: `trim` only drops
characters. -/
theorem mem_of_mem_trim {c : Char} {s : Str} (h : c ∈ trim s) : c ∈ s := by
  unfold trim at h
  rw [List.mem_reverse] at h
  have h1 := (List.dropWhile_sublist _).subset h
  rw [List.mem_reverse] at h1
  exact (List.dropWhile_sublist _).subset h1

/-- The `includes("|")` half of the table dispatch condition is implied by
the `startsWith("|")` half. -/
theorem contains_of_begins_trim {line : Str}
    (h : begins ['|'] (trim line) = true) : containsChar '|' line = true := by
  match htr : trim line with
  | [] => rw [htr] at h; simp [begins] at h
  | c :: rest =>
    rw [htr] at h
    simp [begins] at h
    subst h
    have hm : '|' ∈ trim line := by rw [htr]; exact List.mem_cons_self _ _
    have hmem := mem_of_mem_trim hm
    simp [containsChar]
    first
    | exact hmem
    | exact ⟨'|', hmem, rfl⟩
    | simp [hmem]

/-- The row predicate of the table row loop (lines 53-55): non-blank and
containing a pipe (after the per-line preprocessing). -/
def isTableRow (opts : ParserOptions) (raw : Str) : Bool :=
  !(procLine opts raw).isEmpty && containsChar '|' (procLine opts raw)

/-- Indexed access as head of the dropped suffix. -/
theorem drop_eq_cons_of_get? {α : Type} :
    ∀ (l : List α) (j : Nat) (a : α), l.get? j = some a →
      l.drop j = a :: l.drop (j + 1) := by
  intro l
  induction l with
  | nil => intro j a h; simp at h
  | cons x xs ih =>
    intro j a h
    match j with
    | 0 => simp at h; simp [h]
    | k + 1 =>
      simp only [List.get?_cons_succ] at h
      simpa using ih k a h

/-- The table row loop collects exactly the maximal run of consecutive
row-shaped lines, splitting each into cells, and stops at the index of the
first line failing the test (which it does not consume). -/
theorem tableRowsGo_spec (opts : ParserOptions) :
    ∀ (fuel : Nat) (lines : List Str) (j : Nat) (acc : List (List Str)),
      lines.length ≤ j + fuel →
      tableRowsGo opts fuel lines j acc =
        (acc.reverse ++
          ((lines.drop j).takeWhile (isTableRow opts)).map
            (fun raw => splitCells (procLine opts raw)),
         j + ((lines.drop j).takeWhile (isTableRow opts)).length) := by
  intro fuel
  induction fuel with
  | zero =>
    intro lines j acc h
    have hd : lines.drop j = [] := List.drop_eq_nil_of_le (by omega)
    rw [tableRowsGo, hd]
    simp
  | succ f ih =>
    intro lines j acc h
    rw [tableRowsGo]
    cases hget : lines.get? j with
    | none =>
      have hlen := List.get?_eq_none.mp hget
      have hd : lines.drop j = [] := List.drop_eq_nil_of_le hlen
      rw [hd]
      simp
    | some raw =>
      have hd := drop_eq_cons_of_get? lines j raw hget
      rw [hd]
      dsimp only
      by_cases hrow : procLine opts raw = [] ∨ ¬ containsChar '|' (procLine opts raw)
      · have hfalse : isTableRow opts raw = false := by
          rcases hrow with h1 | h1
          all_goals simp_all [isTableRow]
        rw [if_pos hrow, List.takeWhile_cons, hfalse]
        simp
      · have htrue : isTableRow opts raw = true := by
          push_neg at hrow
          simp_all [isTableRow]
        rw [if_neg hrow, List.takeWhile_cons, htrue]
        rw [ih lines (j + 1) (splitCells (procLine opts raw) :: acc) (by omega)]
        simp
        omega

/-- C4 counterexample: the line `"| x"` contains a single pipe, so under
the claim's recognition condition (`|` plus at least one more `|`) it
would not start a table; the dispatch recognizes it as one regardless. -/
theorem claimC4_cex :
    ("| x".data.count '|') = 1 ∧
    (parse defaultOptions "| x".data).nodes.map MarkdownNode.type = [NodeType.table] := by
  constructor
  · decide
  · rfl

/-- C4 as amended: the dispatch recognizes a table exactly when the
(trimmed) line starts with `|` — one pipe suffices, the `includes("|")`
conjunct being implied.  On recognition it emits one table node whose
headers are the non-empty trimmed pipe-split segments of the line and
whose rows are the cells of the maximal run of consecutive non-blank
pipe-containing lines after the (optionally consumed) separator line,
resuming the dispatch at the first failing line without consuming it. -/
theorem claimC4 :
    (∀ line : Str,
      (containsChar '|' line = true ∧ begins ['|'] (trim line) = true) ↔
        begins ['|'] (trim line) = true) ∧
    (∀ (opts : ParserOptions) (fuel : Nat) (lines : List Str) (i : Nat)
       (nodes : List MarkdownNode) (errs : List Str) (raw : Str),
      lines.get? i = some raw →
      procLine opts raw ≠ [] →
      begins ['|'] (trim (procLine opts raw)) = true →
      lines.length ≤ i + 1 + fuel →
      parseGo opts (fuel + 1) lines i nodes errs =
        parseGo opts fuel lines
          (i + 1 + sepCount opts lines i +
            ((lines.drop (i + 1 + sepCount opts lines i)).takeWhile
              (isTableRow opts)).length)
          (mkNode { type := .table,
                    headers := some (splitCells (procLine opts raw)),
                    rows := some
                      (((lines.drop (i + 1 + sepCount opts lines i)).takeWhile
                          (isTableRow opts)).map
                        (fun r2 => splitCells (procLine opts r2))) } :: nodes)
          errs) := by
  constructor
  · intro line
    exact ⟨fun h => h.2, fun hb => ⟨contains_of_begins_trim hb, hb⟩⟩
  · intro opts fuel lines i nodes errs raw hget hne hb hlen
    rw [parseGo, hget]
    dsimp only
    rw [if_neg hne,
      if_pos ⟨contains_of_begins_trim hb, hb⟩,
      tableRowsGo_spec opts fuel lines (i + 1 + sepCount opts lines i) [] (by omega)]
    simp

/-- Witness for C4 at a concrete two-line input. -/
theorem claimC4_witness :
    parseGo defaultOptions 3 ["| a | b".data, "plain".data] 0 [] [] =
      parseGo defaultOptions 2 ["| a | b".data, "plain".data]
        (0 + 1 + sepCount defaultOptions ["| a | b".data, "plain".data] 0 +
          ((["| a | b".data, "plain".data].drop
              (0 + 1 + sepCount defaultOptions ["| a | b".data, "plain".data] 0)).takeWhile
            (isTableRow defaultOptions)).length)
        (mkNode { type := .table,
                  headers := some (splitCells (procLine defaultOptions "| a | b".data)),
                  rows := some
                    (((["| a | b".data, "plain".data].drop
                          (0 + 1 + sepCount defaultOptions ["| a | b".data, "plain".data] 0)).takeWhile
                        (isTableRow defaultOptions)).map
                      (fun r2 => splitCells (procLine defaultOptions r2))) } :: [])
        [] :=
  claimC4.2 defaultOptions 2 ["| a | b".data, "plain".data] 0 [] [] "| a | b".data
    rfl (by decide) (by decide) (by decide)

/-- On an interior free of emphasis markers, the lazy scan runs to the
final `*_` closer and captures the whole interior. -/
theorem lazyInner_clean :
    ∀ (X : Str), (∀ c ∈ X, c ≠ '*' ∧ c ≠ '_' ∧ jsDot c) →
      ∀ acc : Str, (X = [] → acc ≠ []) →
        lazyInner ['*', '_'] acc (X ++ ['*', '_']) = some (acc.reverse ++ X, []) := by
  intro X
  induction X with
  | nil =>
    intro _ acc hacc
    rw [lazyInner.eq_def]
    dsimp only
    rw [if_pos ⟨hacc rfl, by decide⟩]
    simp
  | cons x xs ih =>
    intro hX acc _
    have hx := hX x (List.mem_cons_self _ _)
    rw [lazyInner.eq_def]
    dsimp only
    rw [if_neg ?hneg]
    case hneg =>
      intro hcd
      have hb := hcd.2
      simp only [List.cons_append, begins, Bool.and_eq_true, beq_iff_eq] at hb
      exact hx.1 hb.1.symm
    simp only [List.cons_append]
    rw [if_pos hx.2.2]
    rw [ih (fun c hc => hX c (List.mem_cons_of_mem _ hc)) (x :: acc) (by simp)]
    simp

/-- C6: the inline tokenizer maps `_*X*_` (for any marker-free non-empty
`X`) to one bold node wrapping one italic child of content `X`, and maps
`"Some _italic_ and *bold* text"` to exactly the five-node sequence
text/italic/text/bold/text in source order. -/
theorem claimC6 :
    (∀ X : Str, X ≠ [] → (∀ c ∈ X, c ≠ '*' ∧ c ≠ '_' ∧ jsDot c) →
      parseInlineEmphasis ('_' :: '*' :: (X ++ ['*', '_'])) =
        [mkNode { type := .bold,
                  children := some [mkNode { type := .italic, content := some X }] }]) ∧
    parseInlineEmphasis "Some _italic_ and *bold* text".data =
      [mkNode { type := .text, content := some "Some ".data },
       mkNode { type := .italic, content := some "italic".data },
       mkNode { type := .text, content := some " and ".data },
       mkNode { type := .bold, content := some "bold".data },
       mkNode { type := .text, content := some " text".data }] := by
  constructor
  · intro X hne hX
    have hbi : matchBoldItalic ('_' :: '*' :: (X ++ ['*', '_'])) = some X := by
      show (lazyInner ['*', '_'] [] (X ++ ['*', '_'])).map (fun p => p.1) = some X
      rw [lazyInner_clean X hX [] (fun h => absurd h hne)]
      simp
    have hstep : emphStep ('_' :: '*' :: (X ++ ['*', '_'])) =
        (mkNode { type := .bold,
                  children := some [mkNode { type := .italic, content := some X }] },
         X.length + 4) := by
      unfold emphStep
      rw [hbi]
    have hlen : ('_' :: '*' :: (X ++ ['*', '_'])).length = X.length + 4 := by
      simp
    unfold parseInlineEmphasis
    rw [hlen, parseInlineGo_cons, hstep]
    simp only
    have hdrop : ('_' :: '*' :: (X ++ ['*', '_'])).drop (X.length + 4) = [] := by
      rw [← hlen]
      exact List.drop_length _
    rw [hdrop, parseInlineGo_nil]
  · rfl

/-- Witness for C6 at `X = "X"`. -/
theorem claimC6_witness :
    parseInlineEmphasis "_*X*_".data =
      [mkNode { type := .bold,
                children := some [mkNode { type := .italic, content := some ['X'] }] }] :=
  claimC6.1 ['X'] (by decide) (by decide)

/-- When no remaining line equals the loop's closer token, the container
scanning loop runs to end-of-input: its final index is at least the line
count, so every remaining line is consumed. -/
theorem contGo_end (opts : ParserOptions) :
    ∀ (fuel : Nat) (closer : Str) (lines : List Str) (i d : Nat)
      (acc : List MarkdownNode),
      1 ≤ d →
      lines.length ≤ i + fuel →
      (∀ j raw, i ≤ j → lines.get? j = some raw → procLine opts raw ≠ closer) →
      lines.length ≤ (contGo opts fuel closer lines i d acc).2 := by
  intro fuel
  induction fuel with
  | zero =>
    intro closer lines i d acc hd hlen hnc
    rw [contGo]
    dsimp only
    omega
  | succ f ih =>
    intro closer lines i d acc hd hlen hnc
    rw [contGo]
    rw [if_neg (by omega : ¬d = 0)]
    cases hget : lines.get? i with
    | none =>
      dsimp only
      have := List.get?_eq_none.mp hget
      omega
    | some raw =>
      dsimp only
      have hne : procLine opts raw ≠ closer := hnc i raw (le_refl i) hget
      rw [if_neg (fun hcl => hne hcl.1)]
      have hd1 : (if procLine opts raw = closer then d - 1 else d) = d := if_neg hne
      rw [hd1]
      repeat' (first | split | dsimp only)
      all_goals refine ih closer lines _ d _ hd ?_ ?_
      all_goals
    (have hA := contGo_le opts f (contCloser .card) lines (i + 1) 1 []
     have hB := contGo_le opts f (contCloser .grid) lines (i + 1) 1 []
     have hC := contGo_le opts f (contCloser .div) lines (i + 1) 1 []
     first
     | omega
     | (intro j raw2 hj hg
        exact hnc j raw2 (by omega) hg))

/-- C7: a card, grid or div opener with no matching closer before
end-of-input closes implicitly at end-of-input — the parse consumes every
remaining line (the returned continuation index is past the last line) —
and no diagnostic is recorded: the returned errors list is absent for
every input. -/
theorem claimC7 :
    (∀ (opts : ParserOptions) (fuel : Nat) (lines : List Str) (start : Nat)
       (t : Option Str),
      lines.length ≤ start + 1 + fuel →
      (∀ j raw, start + 1 ≤ j → lines.get? j = some raw →
        procLine opts raw ≠ "--]".data) →
      lines.length < (parseCard opts fuel lines start t).2) ∧
    (∀ (opts : ParserOptions) (fuel : Nat) (lines : List Str) (start : Nat)
       (kind : ContKind) (cfg : Str),
      lines.length ≤ start + 1 + fuel →
      (∀ j raw, start + 1 ≤ j → lines.get? j = some raw →
        procLine opts raw ≠ contCloser kind) →
      lines.length < (parseContainer opts fuel lines start kind cfg).2) ∧
    (∀ (opts : ParserOptions) (md : Str), (parse opts md).errors = none) := by
  refine ⟨?_, ?_, parse_errors_none⟩
  · intro opts fuel lines start t hlen hnc
    have h := contGo_end opts fuel "--]".data lines (start + 1) 1 [] (le_refl 1)
      (by omega) hnc
    unfold parseCard
    dsimp only
    have hcc : contCloser .card = "--]".data := rfl
    rw [hcc]
    omega
  · intro opts fuel lines start kind cfg hlen hnc
    have h := contGo_end opts fuel (contCloser kind) lines (start + 1) 1 [] (le_refl 1)
      (by omega) hnc
    unfold parseContainer
    dsimp only
    omega

/-- Witness for C7: a one-line input with an unterminated card. -/
theorem claimC7_witness :
    (["x".data] : List Str).length <
      (parseCard defaultOptions 1 ["x".data] 0 none).2 :=
  claimC7.1 defaultOptions 1 ["x".data] 0 none (by decide)
    (by
      intro j raw hj hg
      rcases j with _ | k
      · omega
      · simp [List.get?] at hg)
